import Mathlib

/-!
Verification development for the dark-siren H0 inference code `gal4H0.py`
(repository `dark_sirens_101`).

The source is numpy/scipy Python.  We use two value models:

* an exact-arithmetic model over `ℚ` for the statistical primitives, the
  event simulators and the H0 posterior engines (divisions that can hit a
  zero divisor are flagged by explicit hypotheses in the theorems);
* a float-special-value model `PFloat` (rationals extended by `+inf`,
  `-inf` and `nan`, with IEEE-style propagation rules for the operations
  the code performs) for the redshift-density builders and the Gaussian
  density, whose specified behaviour on degenerate input is precisely
  about NaN/Inf propagation.

Transcendental primitives (`np.exp`, `np.log`, `scipy.special.erf`,
`np.pi`, `x ** -0.5`) and the astropy cosmology evaluator are external
services; they are modelled as parameter records (`QPrims`, `FPrims`) of
rational-valued functions, and theorems that depend on true facts about
them (positivity of exp, monotonicity of erf, ...) state those facts as
hypotheses.
-/

/-- A float-like value: a finite rational, `+inf`, `-inf`, or `nan`.
Finite arithmetic is exact (no rounding/overflow is modelled); the special
values arise from, and propagate through, the operations exactly as IEEE
floats do in numpy (`0/0 = nan`, `x/0 = ±inf` for `x ≠ 0`, `0 * inf = nan`,
`inf - inf = nan`, `finite / inf = 0`, nan propagates). -/
inductive PFloat where
  | fin : ℚ → PFloat
  | pinf : PFloat
  | ninf : PFloat
  | nan : PFloat
deriving DecidableEq

namespace PFloat

/-- IEEE-style addition. -/
def padd : PFloat → PFloat → PFloat
  | fin a, fin b => fin (a + b)
  | fin _, pinf => pinf
  | fin _, ninf => ninf
  | pinf, fin _ => pinf
  | ninf, fin _ => ninf
  | pinf, pinf => pinf
  | ninf, ninf => ninf
  | pinf, ninf => nan
  | ninf, pinf => nan
  | nan, _ => nan
  | _, nan => nan

/-- IEEE-style multiplication (`0 * inf = nan`). -/
def pmul : PFloat → PFloat → PFloat
  | fin a, fin b => fin (a * b)
  | fin a, pinf => if a > 0 then pinf else if a < 0 then ninf else nan
  | fin a, ninf => if a > 0 then ninf else if a < 0 then pinf else nan
  | pinf, fin b => if b > 0 then pinf else if b < 0 then ninf else nan
  | ninf, fin b => if b > 0 then ninf else if b < 0 then pinf else nan
  | pinf, pinf => pinf
  | ninf, ninf => pinf
  | pinf, ninf => ninf
  | ninf, pinf => ninf
  | nan, _ => nan
  | _, nan => nan

/-- IEEE-style division (`0/0 = nan`, `x/0 = ±inf`, `finite/inf = 0`,
`inf/inf = nan`); numpy has no signed rational zero, so division by zero
uses the numerator's sign. -/
def pdiv : PFloat → PFloat → PFloat
  | fin a, fin b =>
      if b = 0 then (if a = 0 then nan else if a > 0 then pinf else ninf)
      else fin (a / b)
  | fin _, pinf => fin 0
  | fin _, ninf => fin 0
  | pinf, fin b => if b < 0 then ninf else pinf
  | ninf, fin b => if b < 0 then pinf else ninf
  | pinf, pinf => nan
  | pinf, ninf => nan
  | ninf, pinf => nan
  | ninf, ninf => nan
  | nan, _ => nan
  | _, nan => nan

/-- `np.power(t, 2.)`. -/
def ppow2 : PFloat → PFloat
  | fin a => fin (a ^ 2)
  | pinf => pinf
  | ninf => pinf
  | nan => nan

/-- Is the value a finite rational? -/
def isFinite : PFloat → Bool
  | fin _ => true
  | _ => false

end PFloat

open PFloat

/-- Rational division producing a float value (the way numpy divides two
finite floats): `0/0 = nan`, `x/0 = ±inf` for `x ≠ 0`. -/
def qdiv (a b : ℚ) : PFloat :=
  if b = 0 then (if a = 0 then PFloat.nan else if a > 0 then PFloat.pinf else PFloat.ninf)
  else PFloat.fin (a / b)

/-- `np.exp` lifted to float values, given a rational-valued model `f` of
exp on finite arguments: `exp (-inf) = 0`, `exp (+inf) = +inf`,
`exp nan = nan`. -/
def pexp (f : ℚ → ℚ) : PFloat → PFloat
  | PFloat.fin q => PFloat.fin (f q)
  | PFloat.pinf => PFloat.pinf
  | PFloat.ninf => PFloat.fin 0
  | PFloat.nan => PFloat.nan

/-- `np.power(q, -0.5)` on a finite argument, given a rational-valued
model `f` of `fun q => q ^ (-1/2 : ℝ)` on positive arguments:
numpy yields `inf` at `0` and `nan` on negatives (with a warning). -/
def npPowNegHalf (f : ℚ → ℚ) (q : ℚ) : PFloat :=
  if 0 < q then PFloat.fin (f q) else if q = 0 then PFloat.pinf else PFloat.nan

/-- External numerical primitives used by the exact-arithmetic (`ℚ`) model:
rational-valued stand-ins for `np.exp`, `np.power(·, -0.5)`, `np.pi`,
`scipy.special.erf` and `np.sqrt 2`.  Theorems state the facts they need
about these (e.g. monotonicity of `erf`) as hypotheses. -/
structure QPrims where
  exp : ℚ → ℚ
  powNegHalf : ℚ → ℚ
  pi : ℚ
  erf : ℚ → ℚ
  sqrt2 : ℚ

/-- External numerical primitives used by the float model (`PFloat`) of the
density builders: stand-ins for `np.exp`, `np.log`, `np.power(·, -0.5)`,
`np.pi`, and the fixed reference cosmology's
`differential_comoving_volume` (the builder constructs
`FlatLambdaCDM(H0=70., Om0=0.25)` internally; `dvc` models that object's
comoving-volume density as a function of redshift). -/
structure FPrims where
  exp : ℚ → ℚ
  log : ℚ → ℚ
  powNegHalf : ℚ → ℚ
  pi : ℚ
  dvc : ℚ → ℚ

/-- `normal_distribution(x, mu, sigma)` from the source, exact-arithmetic
model:  `np.power(2*np.pi*var, -0.5) * np.exp(-0.5*((x-mu)/sigma)**2)`
with `var = sigma**2`. -/
def normal_distribution (P : QPrims) (x mu sigma : ℚ) : ℚ :=
  P.powNegHalf (2 * P.pi * sigma ^ 2) * P.exp (-(1/2) * ((x - mu) / sigma) ^ 2)

/-- `normal_distribution(x, mu, sigma)` from the source, float model:
the same formula with IEEE special-value propagation (relevant when
`sigma = 0`). -/
def normal_distributionF (P : FPrims) (x mu sigma : ℚ) : PFloat :=
  pmul (npPowNegHalf P.powNegHalf (2 * P.pi * sigma ^ 2))
       (pexp P.exp (pmul (PFloat.fin (-(1/2))) (ppow2 (qdiv (x - mu) sigma))))

/-- `GW_detection_probability(dltrue, sigmadl, dlthr)` from the source:
`0.5 * (1 + erf(t_thr / np.sqrt 2))` with `t_thr = (dlthr - dltrue)/sigmadl`. -/
def GW_detection_probability (P : QPrims) (dltrue sigmadl dlthr : ℚ) : ℚ :=
  1/2 * (1 + P.erf ((dlthr - dltrue) / sigmadl / P.sqrt2))

/-- `GW_detection_probability_Heaviside(dltrue, dlthr)` from the source:
an array of ones with zeros where `dltrue > dlthr` — so the boundary
`dltrue = dlthr` is classified as detected (probability 1). -/
def GW_detection_probability_Heaviside (dltrue dlthr : ℚ) : ℚ :=
  if dltrue > dlthr then 0 else 1

/-- `np.linspace a b n` (endpoints included, `n` evenly spaced points:
`a + (b-a)*k/(n-1)` for `k < n`; for `n = 1` the division by zero is `0`
in `ℚ`, giving `[a]` exactly as numpy does). -/
def npLinspace (a b : ℚ) (n : ℕ) : List ℚ :=
  (List.range n).map (fun (k : ℕ) => a + (b - a) * (k : ℚ) / ((n : ℚ) - 1))

/-- `arr.max()` for a numpy array: raises a `ValueError` on a zero-size
array. -/
def npMax : List ℚ → Except String ℚ
  | [] => Except.error "zero-size array to reduction operation maximum which has no identity"
  | a :: as => Except.ok (as.foldl max a)

/-- `np.trapz(y, x)` (trapezoidal rule on a possibly nonuniform grid),
exact-arithmetic model.  Empty or single-point inputs integrate to 0,
as in numpy. -/
def trapzQ : List ℚ → List ℚ → ℚ
  | y0 :: y1 :: ys, x0 :: x1 :: xs => (x1 - x0) * (y0 + y1) / 2 + trapzQ (y1 :: ys) (x1 :: xs)
  | _, _ => 0

/-- `np.trapz(y, x)` in the float model. -/
def trapzF : List PFloat → List ℚ → PFloat
  | y0 :: y1 :: ys, x0 :: x1 :: xs =>
      padd (pdiv (pmul (PFloat.fin (x1 - x0)) (padd y0 y1)) (PFloat.fin 2))
           (trapzF (y1 :: ys) (x1 :: xs))
  | _, _ => PFloat.fin 0

/-- Sequencing of a fallible computation over a list, mirroring a Python
`for` loop whose body can raise: the first raised exception aborts the
whole loop. -/
def mapExcept (f : α → Except String β) : List α → Except String (List β)
  | [] => Except.ok []
  | a :: as =>
    match f a with
    | Except.error e => Except.error e
    | Except.ok b =>
      match mapExcept f as with
      | Except.error e => Except.error e
      | Except.ok bs => Except.ok (b :: bs)

/-- Python keyword-argument binding for a call to
`GW_detection_probability_Heaviside(dltrue, dlthr)`: one positional
argument plus the given keyword names.  A keyword that is not a parameter
name raises a `TypeError` before the function body runs. -/
def heavisideKwargsCall (kwargs : List String) : Except String Unit :=
  match kwargs.find? (fun k => !(k == "dltrue" || k == "dlthr")) with
  | some k =>
      Except.error ("GW_detection_probability_Heaviside() got an unexpected keyword argument " ++ k)
  | none => Except.ok ()

/-! ## Cosmology adapter (external collaborator)

Modelled from the spec: the astropy `FlatLambdaCDM` evaluator is an
external pure service; for fixed `Om0` its luminosity distance scales
exactly as `1/H0` (`d_L(z; H0) = c (1+z) / H0 · ∫ dz'/E(z')` with `E`
depending only on `Om0`).  We therefore model it as an H0-independent
comoving part `C : ℚ → ℚ` (a parameter standing for the distance
integral evaluated by astropy, times the speed of light) divided by `H0`. -/
structure FlatLambdaCDM where
  H0 : ℚ
  Om0 : ℚ

/-- `cosmo.luminosity_distance(z).to('Mpc').value` for a flat ΛCDM
cosmology, given the external comoving part `C` (see `FlatLambdaCDM`). -/
def FlatLambdaCDM.luminosity_distance (cosmo : FlatLambdaCDM) (C : ℚ → ℚ) (z : ℚ) : ℚ :=
  C z / cosmo.H0

/-! ## Event simulators

The weighted-sampling and standard-normal services are external
collaborators.  A realization of the random draws is passed in
explicitly: `pick k` is the index of the galaxy drawn for candidate `k`
(weighted sampling with replacement can return any index of positive
weight), and `randn k` is the `k`-th standard-normal variate. -/

/-- The `rate_term` array: weight 1 for galaxies at or below the rate
cutoff, 0 above it (source lines 164-165 / 197-198). -/
def rateTerm (galaxies_list : List ℚ) (zcut_rate : ℚ) : List ℚ :=
  galaxies_list.map (fun g => if g ≤ zcut_rate then 1 else 0)

/-- The oversample pool size `Ngw` hard-coded in the simulators. -/
def Ngw : ℕ := 100000

/-- Redshift of the `k`-th drawn candidate event. -/
def gwRedshift (galaxies_list : List ℚ) (pick : ℕ → ℕ) (k : ℕ) : ℚ :=
  galaxies_list.getD (pick k) 0

/-- True luminosity distance of the `k`-th drawn candidate event. -/
def gwTrueDl (galaxies_list : List ℚ) (true_cosmology : FlatLambdaCDM) (C : ℚ → ℚ)
    (pick : ℕ → ℕ) (k : ℕ) : ℚ :=
  true_cosmology.luminosity_distance C (gwRedshift galaxies_list pick k)

/-- Std-dev of the distance likelihood for the `k`-th candidate:
`gw_true_dl * sigma_dl`. -/
def gwStdDl (galaxies_list : List ℚ) (true_cosmology : FlatLambdaCDM) (C : ℚ → ℚ)
    (pick : ℕ → ℕ) (sigma_dl : ℚ) (k : ℕ) : ℚ :=
  gwTrueDl galaxies_list true_cosmology C pick k * sigma_dl

/-- Observed (noisy) luminosity distance of the `k`-th candidate:
`np.random.randn(...) * std_dl + gw_true_dl`. -/
def gwObsDl (galaxies_list : List ℚ) (true_cosmology : FlatLambdaCDM) (C : ℚ → ℚ)
    (pick : ℕ → ℕ) (randn : ℕ → ℚ) (sigma_dl : ℚ) (k : ℕ) : ℚ :=
  randn k * gwStdDl galaxies_list true_cosmology C pick sigma_dl k +
    gwTrueDl galaxies_list true_cosmology C pick k

/-- `draw_gw_events(Ndet, sigma_dl, dl_thr, galaxies_list, true_cosmology,
zcut_rate)` from the source: draws `Ngw` candidates from the catalog with
rate weights (`np.random.choice` raises when the probability vector is
`0/0 = nan`), adds Gaussian distance noise, keeps the indices with
observed distance strictly below the threshold, truncates to the first
`Ndet` in draw order, and returns the four aligned arrays. -/
def draw_gw_events (Ndet : ℕ) (sigma_dl dl_thr : ℚ) (galaxies_list : List ℚ)
    (true_cosmology : FlatLambdaCDM) (C : ℚ → ℚ) (zcut_rate : ℚ)
    (pick : ℕ → ℕ) (randn : ℕ → ℚ) :
    Except String (List ℚ × List ℚ × List ℚ × List ℚ) :=
  if (rateTerm galaxies_list zcut_rate).sum = 0 then
    Except.error "probabilities contain NaN"
  else
    let gw_detected :=
      ((List.range Ngw).filter
        (fun k => decide (gwObsDl galaxies_list true_cosmology C pick randn sigma_dl k < dl_thr))).take Ndet
    Except.ok
      (gw_detected.map (gwObsDl galaxies_list true_cosmology C pick randn sigma_dl),
       gw_detected.map (gwTrueDl galaxies_list true_cosmology C pick),
       gw_detected.map (gwRedshift galaxies_list pick),
       gw_detected.map (gwStdDl galaxies_list true_cosmology C pick sigma_dl))

/-- `draw_gw_events_TH21(...)` from the source: identical to
`draw_gw_events` except the observation is noiseless —
`gw_obs_dl = gw_true_dl` (the `randn` stream is unused). -/
def draw_gw_events_TH21 (Ndet : ℕ) (sigma_dl dl_thr : ℚ) (galaxies_list : List ℚ)
    (true_cosmology : FlatLambdaCDM) (C : ℚ → ℚ) (zcut_rate : ℚ)
    (pick : ℕ → ℕ) :
    Except String (List ℚ × List ℚ × List ℚ × List ℚ) :=
  if (rateTerm galaxies_list zcut_rate).sum = 0 then
    Except.error "probabilities contain NaN"
  else
    let gw_detected :=
      ((List.range Ngw).filter
        (fun k => decide (gwTrueDl galaxies_list true_cosmology C pick k < dl_thr))).take Ndet
    Except.ok
      (gw_detected.map (gwTrueDl galaxies_list true_cosmology C pick),
       gw_detected.map (gwTrueDl galaxies_list true_cosmology C pick),
       gw_detected.map (gwRedshift galaxies_list pick),
       gw_detected.map (gwStdDl galaxies_list true_cosmology C pick sigma_dl))

/-- First (observed-distance) array of a simulator result; `[]` if the
call raised. -/
def resObs (r : Except String (List ℚ × List ℚ × List ℚ × List ℚ)) : List ℚ :=
  match r with
  | Except.ok v => v.1
  | Except.error _ => []

/-- Second (true-distance) array of a simulator result. -/
def resTrue (r : Except String (List ℚ × List ℚ × List ℚ × List ℚ)) : List ℚ :=
  match r with
  | Except.ok v => v.2.1
  | Except.error _ => []

/-- Third (true-redshift) array of a simulator result. -/
def resZ (r : Except String (List ℚ × List ℚ × List ℚ × List ℚ)) : List ℚ :=
  match r with
  | Except.ok v => v.2.2.1
  | Except.error _ => []

/-- Fourth (std-dev) array of a simulator result. -/
def resStd (r : Except String (List ℚ × List ℚ × List ℚ × List ℚ)) : List ℚ :=
  match r with
  | Except.ok v => v.2.2.2
  | Except.error _ => []

/-! ## H0 posterior engines -/

/-- The density interpolant handed to the photo-redshift engines:
a scipy `interp1d` object carrying its nodes `x` and node values `y`
(linear rule, zero fill outside — the engines only ever evaluate it at
its own nodes, `zinterpo(zinterpo.x)`, which returns `y`). -/
structure Interp1d where
  x : List ℚ
  y : List ℚ

/-- `dltimesH0`: luminosity distance at the fixed reference cosmology
`FlatLambdaCDM(H0=70., Om0=0.25)` times its `H0`, evaluated on a list of
redshifts (source lines 234-235 / 273-276 / 324-327). -/
def dltimesH0 (C : ℚ → ℚ) (pts : List ℚ) : List ℚ :=
  pts.map (fun z => FlatLambdaCDM.luminosity_distance ⟨70, 1/4⟩ C z * 70)

/-- `dltrial = dltimesH0 / H0`: the trial luminosity distances used by all
three engines for the candidate `H0` (source lines 238 / 283 / 334). -/
def dltrialList (C : ℚ → ℚ) (pts : List ℚ) (H0 : ℚ) : List ℚ :=
  (dltimesH0 C pts).map (fun d => d / H0)

/-- `p_z_given_C = rate_term / rate_term.sum()` of the accurate-redshift
engine (source line 233). -/
def pzGivenC (galaxies_list : List ℚ) (zcut_rate : ℚ) : List ℚ :=
  (rateTerm galaxies_list zcut_rate).map (fun r => r / (rateTerm galaxies_list zcut_rate).sum)

/-- Row i of `combined`'s normalization: divide a vector by its
trapezoidal integral over the H0 grid. -/
def renormalizeRow (v : List ℚ) (grid : List ℚ) : List ℚ :=
  v.map (fun a => a / trapzQ v grid)

/-- Elementwise product of two vectors. -/
def mulVec (a b : List ℚ) : List ℚ := List.zipWith (· * ·) a b

/-- The common final phase of all three engines (source lines 247-253,
296-301, 347-352): normalize each event row by its trapezoidal integral
over the H0 grid, then accumulate the combined posterior as the running
product of the normalized rows, renormalizing after every multiplication. -/
def normalize_and_combine (M : List (List ℚ)) (H0_array : List ℚ) :
    List (List ℚ) × List ℚ :=
  (M.map (fun row => renormalizeRow row H0_array),
   M.foldl (fun comb row => renormalizeRow (mulVec comb (renormalizeRow row H0_array)) H0_array)
     (H0_array.map (fun _ => 1)))

/-- The posterior matrix of `galaxy_catalog_analysis_accurate_redshift`
before row normalization: entry (event i, grid index j) is the discrete
marginal likelihood over galaxies divided by the selection-bias sum for
that `H0` (source lines 237-245). -/
def accurateMatrix (P : QPrims) (C : ℚ → ℚ) (H0_array galaxies_list : List ℚ)
    (zcut_rate : ℚ) (gw_obs_dl : List ℚ) (sigma_dl dl_thr : ℚ) : List (List ℚ) :=
  gw_obs_dl.map (fun dlobs =>
    H0_array.map (fun H0 =>
      (((dltrialList C galaxies_list H0).zip (pzGivenC galaxies_list zcut_rate)).map
          (fun q => normal_distribution P dlobs q.1 (sigma_dl * q.1) * q.2)).sum /
      (((dltrialList C galaxies_list H0).zip (pzGivenC galaxies_list zcut_rate)).map
          (fun q => GW_detection_probability P q.1 (sigma_dl * q.1) dl_thr * q.2)).sum))

/-- `galaxy_catalog_analysis_accurate_redshift(H0_array, galaxies_list,
zcut_rate, gw_obs_dl, sigma_dl, dl_thr)` from the source. -/
def galaxy_catalog_analysis_accurate_redshift (P : QPrims) (C : ℚ → ℚ)
    (H0_array galaxies_list : List ℚ) (zcut_rate : ℚ) (gw_obs_dl : List ℚ)
    (sigma_dl dl_thr : ℚ) : List (List ℚ) × List ℚ :=
  normalize_and_combine
    (accurateMatrix P C H0_array galaxies_list zcut_rate gw_obs_dl sigma_dl dl_thr) H0_array

/-- Selection-bias term of `galaxy_catalog_analysis_photo_redshift` for a
candidate `H0`: trapezoidal integral over the density grid of the smooth
detection probability times the density values (source lines 333-336). -/
def photoSelectionBias (P : QPrims) (C : ℚ → ℚ) (Z : Interp1d) (sigma_dl dl_thr H0 : ℚ) : ℚ :=
  trapzQ (((dltrialList C Z.x H0).zip Z.y).map
    (fun q => GW_detection_probability P q.1 (sigma_dl * q.1) dl_thr * q.2)) Z.x

/-- The posterior matrix of `galaxy_catalog_analysis_photo_redshift`
before row normalization (source lines 338-345). -/
def photoMatrix (P : QPrims) (C : ℚ → ℚ) (H0_array : List ℚ) (Z : Interp1d)
    (gw_obs_dl : List ℚ) (sigma_dl dl_thr : ℚ) : List (List ℚ) :=
  gw_obs_dl.map (fun dlobs =>
    H0_array.map (fun H0 =>
      trapzQ (((dltrialList C Z.x H0).zip Z.y).map
        (fun q => normal_distribution P dlobs q.1 (sigma_dl * q.1) * q.2)) Z.x /
      photoSelectionBias P C Z sigma_dl dl_thr H0))

/-- `galaxy_catalog_analysis_photo_redshift(H0_array, zinterpo, gw_obs_dl,
sigma_dl, dl_thr)` from the source (the photo-redshift "correct" engine). -/
def galaxy_catalog_analysis_photo_redshift (P : QPrims) (C : ℚ → ℚ)
    (H0_array : List ℚ) (Z : Interp1d) (gw_obs_dl : List ℚ) (sigma_dl dl_thr : ℚ) :
    List (List ℚ) × List ℚ :=
  normalize_and_combine (photoMatrix P C H0_array Z gw_obs_dl sigma_dl dl_thr) H0_array

/-- `galaxy_catalog_analysis_photo_redshift_TH21(H0_array, zinterpo,
gw_obs_dl, sigma_dl, dl_thr)` from the source (the photo-redshift
"incorrect" engine).  Its selection-bias loop (source lines 282-285)
calls `GW_detection_probability_Heaviside(dltrial, sigmadl=sigma_dl*dltrial,
dlthr=dl_thr)` — keyword binding against parameters `(dltrue, dlthr)`,
which raises a `TypeError` on the first iteration. -/
def galaxy_catalog_analysis_photo_redshift_TH21 (P : QPrims) (C : ℚ → ℚ)
    (H0_array : List ℚ) (Z : Interp1d) (gw_obs_dl : List ℚ) (sigma_dl dl_thr : ℚ) :
    Except String (List (List ℚ) × List ℚ) :=
  match mapExcept (fun H0 =>
      match heavisideKwargsCall ["sigmadl", "dlthr"] with
      | Except.error e => Except.error e
      | Except.ok _ =>
          Except.ok (trapzQ (((dltrialList C Z.x H0).zip Z.y).map
            (fun q => GW_detection_probability_Heaviside q.1 dl_thr * q.2)) Z.x)) H0_array with
  | Except.error e => Except.error e
  | Except.ok selection_bias =>
      Except.ok (normalize_and_combine
        (gw_obs_dl.map (fun dlobs =>
          (H0_array.zip selection_bias).map (fun p =>
            trapzQ (((dltrialList C Z.x p.1).zip Z.y).map
              (fun q => normal_distribution P dlobs q.1 (sigma_dl * q.1) * q.2)) Z.x / p.2)))
        H0_array)

/-! ## Redshift density builders (float model) -/

/-- The catalog redshift-uncertainty model with its clamp (source lines
92-94, 114-115, 127-128): `sigma = 0.013*(1+z)**3`, capped at `0.015`. -/
def sigmaClamp (z : ℚ) : ℚ :=
  if 13/1000 * (1 + z) ^ 3 > 15/1000 then 15/1000 else 13/1000 * (1 + z) ^ 3

/-- The full builder's evaluation grid (source line 110):
`np.exp(np.linspace(np.log(1e-3), np.log(zrate), 100000))`. -/
def builderGrid (P : FPrims) (zrate : ℚ) : List ℚ :=
  (npLinspace (P.log (1/1000)) (P.log zrate) 100000).map P.exp

/-- The local sub-grid for one galaxy's normalization integral (source
lines 125-126): 50000 points from `max(0, z_obs - 3*sigma_obs)` to
`z_obs + 5*sigma_obs`. -/
def zevalOf (zobs sigobs : ℚ) : List ℚ :=
  npLinspace (max 0 (zobs - 3 * sigobs)) (zobs + 5 * sigobs) 50000

/-- The integrand of one galaxy's local normalization (source lines
127-136): Gaussian kernel (catalog uncertainty model on the local grid)
times the comoving-volume weight (or 1 if `nocom`). -/
def pvalOf (P : FPrims) (nocom : Bool) (zobs sigobs : ℚ) : List PFloat :=
  (zevalOf zobs sigobs).map (fun z =>
    pmul (normal_distributionF P z zobs (sigmaClamp z))
         (PFloat.fin (if nocom then 1 else P.dvc z)))

/-- `normfact`: one galaxy's local normalization integral (source line
137). -/
def normfactOf (P : FPrims) (nocom : Bool) (zobs sigobs : ℚ) : PFloat :=
  trapzF (pvalOf P nocom zobs sigobs) (zevalOf zobs sigobs)

/-- One galaxy's unnormalized contribution on the full grid (the
numerator of `evals` at source line 138): Gaussian kernel on the full
grid times the volume weight. -/
def galaxyRaw (P : FPrims) (zrate : ℚ) (nocom : Bool) (zobs : ℚ) : List PFloat :=
  (builderGrid P zrate).map (fun z =>
    pmul (normal_distributionF P z zobs (sigmaClamp z))
         (PFloat.fin (if nocom then 1 else P.dvc z)))

/-- `evals` (source line 138): the raw contribution divided by the local
normalization integral. -/
def galaxyEvals (P : FPrims) (zrate : ℚ) (nocom : Bool) (zobs sigobs : ℚ) : List PFloat :=
  (galaxyRaw P zrate nocom zobs).map (fun v => pdiv v (normfactOf P nocom zobs sigobs))

/-- `np.all(np.isnan(evals))` (source line 139). -/
def allNaN (l : List PFloat) : Bool :=
  l.all (fun v => v == PFloat.nan)

/-- Elementwise float addition of two equal-length vectors
(`interpolant += evals`). -/
def addVec (a b : List PFloat) : List PFloat := List.zipWith padd a b

/-- One iteration of the full builder's galaxy loop (source lines
123-141): skip the galaxy when `evals` is all-NaN, otherwise accumulate. -/
def builderStep (P : FPrims) (zrate : ℚ) (nocom : Bool)
    (acc : List PFloat) (g : ℚ × ℚ) : List PFloat :=
  let evals := galaxyEvals P zrate nocom g.1 g.2
  if allNaN evals then acc else addVec acc evals

/-- The summed (pre-normalization) density curve of the full builder:
the galaxy loop folded over the catalog, starting from
`np.zeros_like(zinterpolant)`. -/
def interpolantSum (P : FPrims) (zrate : ℚ) (nocom : Bool)
    (z_obs sigmazevalobs : List ℚ) : List PFloat :=
  (z_obs.zip sigmazevalobs).foldl (builderStep P zrate nocom)
    ((builderGrid P zrate).map (fun _ => PFloat.fin 0))

/-- `build_interpolant(z_obs, sigmazevalobs, zrate, nocom)` from the
source: the summed curve divided by its own trapezoidal integral over the
full grid, returned together with the grid (the `interp1d` pair). -/
def build_interpolant (P : FPrims) (z_obs sigmazevalobs : List ℚ)
    (zrate : ℚ) (nocom : Bool) : List PFloat × List ℚ :=
  let s := interpolantSum P zrate nocom z_obs sigmazevalobs
  (s.map (fun v => pdiv v (trapzF s (builderGrid P zrate))), builderGrid P zrate)

/-- `build_interpolant_TH21(z_true)` from the source: grid
`np.exp(np.linspace(np.log(1e-4), np.log(z_true.max()), 50000))` (so
`z_true.max()` raises on an empty catalog), then the sum of Gaussian
kernels of width `sigmaClamp z_true[i]`, with no normalization. -/
def build_interpolant_TH21 (P : FPrims) (z_true : List ℚ) :
    Except String (List PFloat × List ℚ) :=
  match npMax z_true with
  | Except.error e => Except.error e
  | Except.ok zmax =>
      let grid := (npLinspace (P.log (1/10000)) (P.log zmax) 50000).map P.exp
      Except.ok
        (z_true.foldl (fun acc zi =>
            addVec acc (grid.map (fun z => normal_distributionF P z zi (sigmaClamp zi))))
          (grid.map (fun _ => PFloat.fin 0)),
         grid)

/-! ## Concrete primitive instances for witnesses and counterexamples

Simple computable rational stand-ins satisfying the structural facts the
theorems assume about the true transcendental primitives (`erf` strictly
increasing with `erf 0 = 0`, `exp` positive with `exp 0 = 1` where used,
`x ^ (-1/2)` positive on positives, `π > 0`). -/

/-- Demo exact-model primitives. -/
def demoQ : QPrims where
  exp := fun _ => 1
  powNegHalf := fun _ => 1
  pi := 3
  erf := fun q => q
  sqrt2 := 1

/-- Demo float-model primitives. -/
def demoF : FPrims where
  exp := fun _ => 1
  log := fun q => q
  powNegHalf := fun _ => 1
  pi := 3
  dvc := fun _ => 1

/-- The successive values of `combined` after each
multiply-and-renormalize step of the engines' final loop. -/
def combinedSteps (grid : List ℚ) (comb : List ℚ) : List (List ℚ) → List (List ℚ)
  | [] => []
  | row :: rest =>
      let c := renormalizeRow (mulVec comb (renormalizeRow row grid)) grid
      c :: combinedSteps grid c rest

/-- Decidable statement that every renormalization divisor along the
combined-posterior accumulation is nonzero. -/
def stepsNonzeroB (grid : List ℚ) (comb : List ℚ) : List (List ℚ) → Bool
  | [] => true
  | row :: rest =>
      let pre := mulVec comb (renormalizeRow row grid)
      decide (trapzQ pre grid ≠ 0) && stepsNonzeroB grid (renormalizeRow pre grid) rest

/-- Four parallel arrays viewed as a list of aligned 4-tuples. -/
def zip4 : List ℚ → List ℚ → List ℚ → List ℚ → List (ℚ × ℚ × ℚ × ℚ)
  | a :: as, b :: bs, c :: cs, d :: ds => (a, b, c, d) :: zip4 as bs cs ds
  | _, _, _, _ => []

/-- The aligned 4-tuple stream (observed, true, redshift, std-dev) of the
noisy simulator's candidate pool, as a function of the draw index. -/
def gwTuple (galaxies_list : List ℚ) (cos : FlatLambdaCDM) (C : ℚ → ℚ)
    (pick : ℕ → ℕ) (randn : ℕ → ℚ) (sigma_dl : ℚ) (k : ℕ) : ℚ × ℚ × ℚ × ℚ :=
  (gwObsDl galaxies_list cos C pick randn sigma_dl k,
   gwTrueDl galaxies_list cos C pick k,
   gwRedshift galaxies_list pick k,
   gwStdDl galaxies_list cos C pick sigma_dl k)

/-- The aligned 4-tuple stream of the TH21 (noiseless) simulator's
candidate pool. -/
def gwTupleTH21 (galaxies_list : List ℚ) (cos : FlatLambdaCDM) (C : ℚ → ℚ)
    (pick : ℕ → ℕ) (sigma_dl : ℚ) (k : ℕ) : ℚ × ℚ × ℚ × ℚ :=
  (gwTrueDl galaxies_list cos C pick k,
   gwTrueDl galaxies_list cos C pick k,
   gwRedshift galaxies_list pick k,
   gwStdDl galaxies_list cos C pick sigma_dl k)

/-! ## Helper lemmas -/

theorem trapzQ_map_div (T : ℚ) : ∀ (v x : List ℚ),
    trapzQ (v.map (fun a => a / T)) x = trapzQ v x / T
  | [], x => by simp [trapzQ]
  | [y0], x => by
      cases x <;> simp [trapzQ]
  | y0 :: y1 :: ys, [] => by simp [trapzQ]
  | y0 :: y1 :: ys, [x0] => by simp [trapzQ]
  | y0 :: y1 :: ys, x0 :: x1 :: xs => by
      have ih := trapzQ_map_div T (y1 :: ys) (x1 :: xs)
      simp only [List.map_cons] at ih ⊢
      rw [trapzQ, trapzQ, ih, add_div]
      congr 1
      rw [div_add_div_same, mul_div_assoc, mul_div_assoc, div_div]
      ring_nf

theorem trapzQ_renormalizeRow {v grid : List ℚ} (h : trapzQ v grid ≠ 0) :
    trapzQ (renormalizeRow v grid) grid = 1 := by
  unfold renormalizeRow
  rw [trapzQ_map_div, div_self h]

theorem combinedSteps_all_one (grid : List ℚ) :
    ∀ (M : List (List ℚ)) (comb : List ℚ), stepsNonzeroB grid comb M = true →
      ∀ c ∈ combinedSteps grid comb M, trapzQ c grid = 1
  | [], _, _ => by intro c hc; simp [combinedSteps] at hc
  | row :: rest, comb, h => by
      intro c hc
      rw [stepsNonzeroB, Bool.and_eq_true, decide_eq_true_eq] at h
      rw [combinedSteps, List.mem_cons] at hc
      rcases hc with rfl | hc
      · exact trapzQ_renormalizeRow h.1
      · exact combinedSteps_all_one grid rest _ h.2 c hc

theorem foldl_combine_eq_getLastD (grid : List ℚ) :
    ∀ (M : List (List ℚ)) (comb : List ℚ),
      M.foldl (fun c row => renormalizeRow (mulVec c (renormalizeRow row grid)) grid) comb =
        (combinedSteps grid comb M).getLastD comb
  | [], comb => rfl
  | row :: rest, comb => by
      rw [List.foldl_cons, combinedSteps, List.getLastD_cons]
      exact foldl_combine_eq_getLastD grid rest _

theorem combinedSteps_ne_nil (grid comb : List ℚ) (M : List (List ℚ)) (h : M ≠ []) :
    combinedSteps grid comb M ≠ [] := by
  cases M with
  | nil => exact absurd rfl h
  | cons row rest => simp [combinedSteps]

theorem getLastD_mem {α : Type} : ∀ (l : List α) (d : α), l ≠ [] → l.getLastD d ∈ l
  | [], _, h => absurd rfl h
  | [a], d, _ => by simp
  | a :: b :: l, d, _ => by
      rw [List.getLastD_cons]
      exact List.mem_cons_of_mem a (getLastD_mem (b :: l) a (by simp))

theorem mem_filter_take_lt {f : ℕ → ℚ} {thr : ℚ} {n m : ℕ} {x : ℚ}
    (hx : x ∈ (((List.range n).filter (fun k => decide (f k < thr))).take m).map f) :
    x < thr := by
  obtain ⟨k, hk, rfl⟩ := List.mem_map.1 hx
  have h1 : k ∈ (List.range n).filter (fun k => decide (f k < thr)) :=
    List.mem_of_mem_take hk
  have h2 := List.of_mem_filter h1
  simpa using h2

/-! ## Claim C1 -/

/-- Claim C1: the photo-redshift "incorrect" engine is NOT behaviourally
identical to the correct one up to the Heaviside selection model — its
selection-bias loop passes the keyword argument `sigmadl` to
`GW_detection_probability_Heaviside`, whose parameters are
`(dltrue, dlthr)`, so the first loop iteration raises a `TypeError` and
the engine returns nothing for every input with a nonempty H0 grid
(code bug: the call was copied from the smooth-model engine). -/
theorem th21_engine_raises_typeerror (P : QPrims) (C : ℚ → ℚ) (H0_array : List ℚ)
    (Z : Interp1d) (gw_obs_dl : List ℚ) (sigma_dl dl_thr : ℚ) (h : H0_array ≠ []) :
    galaxy_catalog_analysis_photo_redshift_TH21 P C H0_array Z gw_obs_dl sigma_dl dl_thr =
      Except.error
        "GW_detection_probability_Heaviside() got an unexpected keyword argument sigmadl" := by
  cases H0_array with
  | nil => exact absurd rfl h
  | cons h0 t => rfl

/-- Witness for C1 at a concrete input. -/
theorem th21_engine_raises_typeerror_witness :
    galaxy_catalog_analysis_photo_redshift_TH21 demoQ (fun _ => 7000) [70]
        ⟨[1/10, 1/5], [1, 1]⟩ [100] (1/10) 1000 =
      Except.error
        "GW_detection_probability_Heaviside() got an unexpected keyword argument sigmadl" :=
  th21_engine_raises_typeerror demoQ (fun _ => 7000) [70] ⟨[1/10, 1/5], [1, 1]⟩ [100]
    (1/10) 1000 (by simp)

/-! ## Claim C7 -/

/-- Claim C7: every posterior engine computes its trial luminosity
distances through `dltrialList` — the reference-cosmology
(`H0=70, Om0=0.25`) distance times `70`, divided by the trial `H0` — and
this rescaled value coincides with re-evaluating the cosmology at the
trial `H0` (luminosity distance scales exactly as `1/H0` at fixed
`Om0`). -/
theorem dltrial_rescaling (C : ℚ → ℚ) (pts : List ℚ) (H0 : ℚ) :
    dltrialList C pts H0 =
      pts.map (fun z => FlatLambdaCDM.luminosity_distance ⟨70, 1/4⟩ C z * 70 / H0) ∧
    dltrialList C pts H0 =
      pts.map (fun z => FlatLambdaCDM.luminosity_distance ⟨H0, 1/4⟩ C z) := by
  constructor
  · rw [dltrialList, dltimesH0, List.map_map]
    rfl
  · rw [dltrialList, dltimesH0, List.map_map]
    apply List.map_congr_left
    intro z _
    show FlatLambdaCDM.luminosity_distance ⟨70, 1/4⟩ C z * 70 / H0 = _
    unfold FlatLambdaCDM.luminosity_distance
    rw [div_mul_cancel₀ (C z) (by norm_num : (70:ℚ) ≠ 0)]

/-! ## Claim C9 -/

/-- Claim C9: under the true properties of `erf` (odd-function value
`erf 0 = 0`, monotone nondecreasing) and `√2 > 0`, the smooth detection
probability equals `1/2` at `dltrue = dlthr` and is monotonically
nonincreasing in the true distance, for every `sigmadl > 0`. -/
theorem detection_probability_half_and_monotone (P : QPrims) (sigmadl dlthr x1 x2 : ℚ)
    (hs : 0 < sigmadl) (hs2 : 0 < P.sqrt2) (herf0 : P.erf 0 = 0)
    (hmono : ∀ a b : ℚ, a ≤ b → P.erf a ≤ P.erf b) (hx : x1 < x2) :
    GW_detection_probability P dlthr sigmadl dlthr = 1/2 ∧
    GW_detection_probability P x2 sigmadl dlthr ≤ GW_detection_probability P x1 sigmadl dlthr := by
  constructor
  · unfold GW_detection_probability
    rw [sub_self, zero_div, zero_div, herf0]
    norm_num
  · unfold GW_detection_probability
    have h0 : (dlthr - x2) / sigmadl ≤ (dlthr - x1) / sigmadl :=
      (div_le_div_iff_of_pos_right hs).mpr (by linarith)
    have h1 : (dlthr - x2) / sigmadl / P.sqrt2 ≤ (dlthr - x1) / sigmadl / P.sqrt2 :=
      (div_le_div_iff_of_pos_right hs2).mpr h0
    have h2 := hmono _ _ h1
    linarith

/-- Witness for C9 at a concrete input. -/
theorem detection_probability_half_and_monotone_witness :
    GW_detection_probability demoQ 5 1 5 = 1/2 ∧
    GW_detection_probability demoQ 2 1 5 ≤ GW_detection_probability demoQ 1 1 5 :=
  detection_probability_half_and_monotone demoQ 1 5 1 2 (by norm_num) (by decide) rfl
    (fun a b h => h) (by norm_num)

/-! ## Claim C10 -/

/-- Claim C10: both simulators select with the strict inequality
`gw_obs_dl < dl_thr`, so an event whose observed distance equals the
threshold exactly is never returned — while the Heaviside detection
model assigns probability 1 (detected) to a true distance exactly at the
threshold; the two disagree on the boundary case. -/
theorem simulator_strict_threshold (Ndet : ℕ) (sigma_dl dl_thr : ℚ) (galaxies_list : List ℚ)
    (cos : FlatLambdaCDM) (C : ℚ → ℚ) (zcut_rate : ℚ) (pick : ℕ → ℕ) (randn : ℕ → ℚ) :
    (∀ x ∈ resObs (draw_gw_events Ndet sigma_dl dl_thr galaxies_list cos C zcut_rate pick randn),
        x ≠ dl_thr) ∧
    (∀ x ∈ resObs (draw_gw_events_TH21 Ndet sigma_dl dl_thr galaxies_list cos C zcut_rate pick),
        x ≠ dl_thr) ∧
    GW_detection_probability_Heaviside dl_thr dl_thr = 1 := by
  refine ⟨?_, ?_, by simp [GW_detection_probability_Heaviside]⟩
  · intro x hx
    by_cases h : (rateTerm galaxies_list zcut_rate).sum = 0
    · simp [draw_gw_events, h, resObs] at hx
    · simp only [draw_gw_events, if_neg h, resObs] at hx
      exact ne_of_lt (mem_filter_take_lt hx)
  · intro x hx
    by_cases h : (rateTerm galaxies_list zcut_rate).sum = 0
    · simp [draw_gw_events_TH21, h, resObs] at hx
    · simp only [draw_gw_events_TH21, if_neg h, resObs] at hx
      exact ne_of_lt (mem_filter_take_lt hx)

/-! ## Claim C4 -/

theorem gwObsDl_sigma_zero (galaxies_list : List ℚ) (cos : FlatLambdaCDM) (C : ℚ → ℚ)
    (pick : ℕ → ℕ) (randn : ℕ → ℚ) (k : ℕ) :
    gwObsDl galaxies_list cos C pick randn 0 k = gwTrueDl galaxies_list cos C pick k := by
  unfold gwObsDl gwStdDl
  ring

/-- Counterexample to C4 as stated: with `sigma_dl = 1` and a noise draw
of `-2` standard deviations, every candidate event has observed distance
`-100 < 0`, which passes the `< dl_thr` detection cut, so the simulator
returns a negative observed luminosity distance. -/
theorem draw_gw_events_negative_observed :
    draw_gw_events 1 1 1000 [1/10] ⟨70, 1/4⟩ (fun _ => 7000) 1 (fun _ => 0) (fun _ => -2) =
      Except.ok ([-100], [100], [1/10], [100]) ∧ ((-100 : ℚ) < 0) := by
  refine ⟨?_, by norm_num⟩
  have hobs : ∀ k, gwObsDl [1/10] ⟨70, 1/4⟩ (fun _ => 7000) (fun _ => 0) (fun _ => -2) 1 k
      = -100 := by
    intro k
    unfold gwObsDl gwStdDl gwTrueDl gwRedshift FlatLambdaCDM.luminosity_distance
    norm_num [List.getD]
  have htrue : ∀ k, gwTrueDl [1/10] ⟨70, 1/4⟩ (fun _ => 7000) (fun _ => 0) k = 100 := by
    intro k
    unfold gwTrueDl gwRedshift FlatLambdaCDM.luminosity_distance
    norm_num [List.getD]
  have hstd : ∀ k, gwStdDl [1/10] ⟨70, 1/4⟩ (fun _ => 7000) (fun _ => 0) 1 k = 100 := by
    intro k
    unfold gwStdDl
    rw [htrue k]
    norm_num
  have hz : ∀ k, gwRedshift [1/10] (fun _ => 0) k = 1/10 := by
    intro k
    unfold gwRedshift
    norm_num [List.getD]
  have hsum : ¬ (rateTerm [1/10] (1:ℚ)).sum = 0 := by norm_num [rateTerm]
  have hdet : ((List.range Ngw).filter
      (fun k => decide (gwObsDl [1/10] ⟨70, 1/4⟩ (fun _ => 7000) (fun _ => 0)
        (fun _ => -2) 1 k < 1000))).take 1 = [0] := by
    have hall : ∀ k ∈ List.range Ngw,
        (fun k => decide (gwObsDl [1/10] ⟨70, 1/4⟩ (fun _ => 7000) (fun _ => 0)
          (fun _ => -2) 1 k < 1000)) k = true := by
      intro k _
      rw [decide_eq_true_eq, hobs k]
      norm_num
    rw [List.filter_eq_self.mpr hall, List.take_range]
    decide
  unfold draw_gw_events
  rw [if_neg hsum]
  rw [hdet]
  simp only [List.map_cons, List.map_nil, hobs, htrue, hz, hstd]

/-- Claim C4 (amended): every observed distance returned by
`draw_gw_events` is strictly below the detection threshold but need not
be nonnegative; in the noiseless case `sigma_dl = 0` the observed
distances coincide with the true distances, and are therefore nonnegative
whenever the cosmology adapter returns nonnegative luminosity distances. -/
theorem draw_gw_events_observed_range (Ndet : ℕ) (sigma_dl dl_thr : ℚ)
    (galaxies_list : List ℚ) (cos : FlatLambdaCDM) (C : ℚ → ℚ) (zcut_rate : ℚ)
    (pick : ℕ → ℕ) (randn : ℕ → ℚ) :
    (∀ x ∈ resObs (draw_gw_events Ndet sigma_dl dl_thr galaxies_list cos C zcut_rate pick randn),
        x < dl_thr) ∧
    (sigma_dl = 0 →
      resObs (draw_gw_events Ndet sigma_dl dl_thr galaxies_list cos C zcut_rate pick randn) =
      resTrue (draw_gw_events Ndet sigma_dl dl_thr galaxies_list cos C zcut_rate pick randn)) ∧
    (sigma_dl = 0 → (∀ z : ℚ, 0 ≤ cos.luminosity_distance C z) →
      ∀ x ∈ resObs (draw_gw_events Ndet sigma_dl dl_thr galaxies_list cos C zcut_rate pick randn),
        0 ≤ x) := by
  refine ⟨?_, ?_, ?_⟩
  · intro x hx
    by_cases h : (rateTerm galaxies_list zcut_rate).sum = 0
    · simp [draw_gw_events, h, resObs] at hx
    · simp only [draw_gw_events, if_neg h, resObs] at hx
      exact mem_filter_take_lt hx
  · intro hσ
    subst hσ
    by_cases h : (rateTerm galaxies_list zcut_rate).sum = 0
    · simp [draw_gw_events, h, resObs, resTrue]
    · simp only [draw_gw_events, if_neg h, resObs, resTrue]
      exact List.map_congr_left (fun k _ => gwObsDl_sigma_zero galaxies_list cos C pick randn k)
  · intro hσ hpos x hx
    subst hσ
    by_cases h : (rateTerm galaxies_list zcut_rate).sum = 0
    · simp [draw_gw_events, h, resObs] at hx
    · simp only [draw_gw_events, if_neg h, resObs] at hx
      obtain ⟨k, _, rfl⟩ := List.mem_map.1 hx
      rw [gwObsDl_sigma_zero]
      exact hpos _

/-- Witness for the amended C4 at a concrete noiseless input. -/
theorem draw_gw_events_observed_range_witness :
    (∀ x ∈ resObs (draw_gw_events 1 0 1000 [1/10] ⟨70, 1/4⟩ (fun _ => 7000) 1
        (fun _ => 0) (fun _ => -2)), x < 1000) ∧
    ((0:ℚ) = 0 →
      resObs (draw_gw_events 1 0 1000 [1/10] ⟨70, 1/4⟩ (fun _ => 7000) 1
        (fun _ => 0) (fun _ => -2)) =
      resTrue (draw_gw_events 1 0 1000 [1/10] ⟨70, 1/4⟩ (fun _ => 7000) 1
        (fun _ => 0) (fun _ => -2))) ∧
    ((0:ℚ) = 0 → (∀ z : ℚ, 0 ≤ FlatLambdaCDM.luminosity_distance ⟨70, 1/4⟩ (fun _ => 7000) z) →
      ∀ x ∈ resObs (draw_gw_events 1 0 1000 [1/10] ⟨70, 1/4⟩ (fun _ => 7000) 1
        (fun _ => 0) (fun _ => -2)), 0 ≤ x) :=
  draw_gw_events_observed_range 1 0 1000 [1/10] ⟨70, 1/4⟩ (fun _ => 7000) 1
    (fun _ => 0) (fun _ => -2)

/-! ## Claim C8 -/

theorem zip4_map (f g h e : ℕ → ℚ) : ∀ l : List ℕ,
    zip4 (l.map f) (l.map g) (l.map h) (l.map e) = l.map (fun k => (f k, g k, h k, e k))
  | [] => rfl
  | a :: as => by
      simp only [List.map_cons, zip4]
      exact congrArg _ (zip4_map f g h e as)

theorem filter_map_comm {α β : Type} (l : List α) (f : α → β) (p : β → Bool) :
    (l.map f).filter p = (l.filter (fun a => p (f a))).map f := by
  induction l with
  | nil => rfl
  | cons a as ih =>
      simp only [List.map_cons, List.filter_cons]
      cases h : p (f a) <;> simp [h, ih]

/-- Claim C8: both simulators return exactly the detected candidates
(observed distance strictly below threshold), truncated to the first
`Ndet` in draw order, as four aligned arrays of equal length at most
`Ndet`. -/
theorem simulators_return_first_detected (Ndet : ℕ) (sigma_dl dl_thr : ℚ)
    (galaxies_list : List ℚ) (cos : FlatLambdaCDM) (C : ℚ → ℚ) (zcut_rate : ℚ)
    (pick : ℕ → ℕ) (randn : ℕ → ℚ)
    (h : (rateTerm galaxies_list zcut_rate).sum ≠ 0) :
    (zip4 (resObs (draw_gw_events Ndet sigma_dl dl_thr galaxies_list cos C zcut_rate pick randn))
          (resTrue (draw_gw_events Ndet sigma_dl dl_thr galaxies_list cos C zcut_rate pick randn))
          (resZ (draw_gw_events Ndet sigma_dl dl_thr galaxies_list cos C zcut_rate pick randn))
          (resStd (draw_gw_events Ndet sigma_dl dl_thr galaxies_list cos C zcut_rate pick randn)) =
        (((List.range Ngw).map (gwTuple galaxies_list cos C pick randn sigma_dl)).filter
          (fun e => decide (e.1 < dl_thr))).take Ndet) ∧
    (resObs (draw_gw_events Ndet sigma_dl dl_thr galaxies_list cos C zcut_rate pick randn)).length
        ≤ Ndet ∧
    (resObs (draw_gw_events Ndet sigma_dl dl_thr galaxies_list cos C zcut_rate pick randn)).length
      = (resTrue (draw_gw_events Ndet sigma_dl dl_thr galaxies_list cos C zcut_rate pick randn)).length ∧
    (resObs (draw_gw_events Ndet sigma_dl dl_thr galaxies_list cos C zcut_rate pick randn)).length
      = (resZ (draw_gw_events Ndet sigma_dl dl_thr galaxies_list cos C zcut_rate pick randn)).length ∧
    (resObs (draw_gw_events Ndet sigma_dl dl_thr galaxies_list cos C zcut_rate pick randn)).length
      = (resStd (draw_gw_events Ndet sigma_dl dl_thr galaxies_list cos C zcut_rate pick randn)).length ∧
    (zip4 (resObs (draw_gw_events_TH21 Ndet sigma_dl dl_thr galaxies_list cos C zcut_rate pick))
          (resTrue (draw_gw_events_TH21 Ndet sigma_dl dl_thr galaxies_list cos C zcut_rate pick))
          (resZ (draw_gw_events_TH21 Ndet sigma_dl dl_thr galaxies_list cos C zcut_rate pick))
          (resStd (draw_gw_events_TH21 Ndet sigma_dl dl_thr galaxies_list cos C zcut_rate pick)) =
        (((List.range Ngw).map (gwTupleTH21 galaxies_list cos C pick sigma_dl)).filter
          (fun e => decide (e.1 < dl_thr))).take Ndet) ∧
    (resObs (draw_gw_events_TH21 Ndet sigma_dl dl_thr galaxies_list cos C zcut_rate pick)).length
        ≤ Ndet := by
  have hfilt : (((List.range Ngw).map (gwTuple galaxies_list cos C pick randn sigma_dl)).filter
      (fun e => decide (e.1 < dl_thr))).take Ndet =
      (((List.range Ngw).filter
        (fun k => decide (gwObsDl galaxies_list cos C pick randn sigma_dl k < dl_thr))).take
          Ndet).map (gwTuple galaxies_list cos C pick randn sigma_dl) := by
    rw [filter_map_comm, List.map_take]
    rfl
  have hfiltT : (((List.range Ngw).map (gwTupleTH21 galaxies_list cos C pick sigma_dl)).filter
      (fun e => decide (e.1 < dl_thr))).take Ndet =
      (((List.range Ngw).filter
        (fun k => decide (gwTrueDl galaxies_list cos C pick k < dl_thr))).take
          Ndet).map (gwTupleTH21 galaxies_list cos C pick sigma_dl) := by
    rw [filter_map_comm, List.map_take]
    rfl
  refine ⟨?_, ?_, ?_, ?_, ?_, ?_, ?_⟩ <;>
    simp only [draw_gw_events, draw_gw_events_TH21, if_neg h, resObs, resTrue, resZ, resStd]
  · rw [hfilt, zip4_map]
    rfl
  · simp only [List.length_map, List.length_take]
    exact min_le_left _ _
  · simp only [List.length_map]
  · simp only [List.length_map]
  · simp only [List.length_map]
  · rw [hfiltT, zip4_map]
    rfl
  · simp only [List.length_map, List.length_take]
    exact min_le_left _ _

/-- Witness for C8 at a concrete input. -/
theorem simulators_return_first_detected_witness :
    (zip4 (resObs (draw_gw_events 2 1 1000 [1/10] ⟨70, 1/4⟩ (fun _ => 7000) 1
            (fun _ => 0) (fun _ => -2)))
          (resTrue (draw_gw_events 2 1 1000 [1/10] ⟨70, 1/4⟩ (fun _ => 7000) 1
            (fun _ => 0) (fun _ => -2)))
          (resZ (draw_gw_events 2 1 1000 [1/10] ⟨70, 1/4⟩ (fun _ => 7000) 1
            (fun _ => 0) (fun _ => -2)))
          (resStd (draw_gw_events 2 1 1000 [1/10] ⟨70, 1/4⟩ (fun _ => 7000) 1
            (fun _ => 0) (fun _ => -2))) =
        (((List.range Ngw).map (gwTuple [1/10] ⟨70, 1/4⟩ (fun _ => 7000) (fun _ => 0)
            (fun _ => -2) 1)).filter (fun e => decide (e.1 < 1000))).take 2) ∧
    (resObs (draw_gw_events 2 1 1000 [1/10] ⟨70, 1/4⟩ (fun _ => 7000) 1
        (fun _ => 0) (fun _ => -2))).length ≤ 2 ∧
    (resObs (draw_gw_events 2 1 1000 [1/10] ⟨70, 1/4⟩ (fun _ => 7000) 1
        (fun _ => 0) (fun _ => -2))).length
      = (resTrue (draw_gw_events 2 1 1000 [1/10] ⟨70, 1/4⟩ (fun _ => 7000) 1
        (fun _ => 0) (fun _ => -2))).length ∧
    (resObs (draw_gw_events 2 1 1000 [1/10] ⟨70, 1/4⟩ (fun _ => 7000) 1
        (fun _ => 0) (fun _ => -2))).length
      = (resZ (draw_gw_events 2 1 1000 [1/10] ⟨70, 1/4⟩ (fun _ => 7000) 1
        (fun _ => 0) (fun _ => -2))).length ∧
    (resObs (draw_gw_events 2 1 1000 [1/10] ⟨70, 1/4⟩ (fun _ => 7000) 1
        (fun _ => 0) (fun _ => -2))).length
      = (resStd (draw_gw_events 2 1 1000 [1/10] ⟨70, 1/4⟩ (fun _ => 7000) 1
        (fun _ => 0) (fun _ => -2))).length ∧
    (zip4 (resObs (draw_gw_events_TH21 2 1 1000 [1/10] ⟨70, 1/4⟩ (fun _ => 7000) 1
            (fun _ => 0)))
          (resTrue (draw_gw_events_TH21 2 1 1000 [1/10] ⟨70, 1/4⟩ (fun _ => 7000) 1
            (fun _ => 0)))
          (resZ (draw_gw_events_TH21 2 1 1000 [1/10] ⟨70, 1/4⟩ (fun _ => 7000) 1
            (fun _ => 0)))
          (resStd (draw_gw_events_TH21 2 1 1000 [1/10] ⟨70, 1/4⟩ (fun _ => 7000) 1
            (fun _ => 0))) =
        (((List.range Ngw).map (gwTupleTH21 [1/10] ⟨70, 1/4⟩ (fun _ => 7000) (fun _ => 0)
            1)).filter (fun e => decide (e.1 < 1000))).take 2) ∧
    (resObs (draw_gw_events_TH21 2 1 1000 [1/10] ⟨70, 1/4⟩ (fun _ => 7000) 1
        (fun _ => 0))).length ≤ 2 :=
  simulators_return_first_detected 2 1 1000 [1/10] ⟨70, 1/4⟩ (fun _ => 7000) 1
    (fun _ => 0) (fun _ => -2) (by norm_num [rateTerm])

/-! ## Claim C6 -/

theorem ppow2_qdiv_neg (a b : ℚ) : ppow2 (qdiv a (-b)) = ppow2 (qdiv a b) := by
  unfold qdiv
  by_cases hb : b = 0
  · subst hb
    rw [neg_zero]
  · rw [if_neg hb, if_neg (neg_ne_zero.mpr hb), div_neg]
    simp only [ppow2]
    rw [neg_sq]

theorem normal_distributionF_sigma_zero (P : FPrims) (x mu : ℚ) :
    normal_distributionF P x mu 0 = PFloat.nan := by
  have h0 : 2 * P.pi * (0:ℚ) ^ 2 = 0 := by ring
  unfold normal_distributionF
  rw [h0]
  have hpow : npPowNegHalf P.powNegHalf 0 = PFloat.pinf := by
    unfold npPowNegHalf
    rw [if_neg (lt_irrefl 0), if_pos rfl]
  rw [hpow]
  rcases lt_trichotomy (x - mu) 0 with hc | hc | hc
  · have hq : qdiv (x - mu) 0 = PFloat.ninf := by
      unfold qdiv
      rw [if_pos rfl, if_neg (ne_of_lt hc), if_neg (not_lt.mpr hc.le)]
    rw [hq]
    norm_num [ppow2, pmul, pexp]
  · have hq : qdiv (x - mu) 0 = PFloat.nan := by
      unfold qdiv
      rw [if_pos rfl, if_pos hc]
    rw [hq]
    norm_num [ppow2, pmul, pexp]
  · have hq : qdiv (x - mu) 0 = PFloat.pinf := by
      unfold qdiv
      rw [if_pos rfl, if_neg (ne_of_gt hc), if_pos hc]
    rw [hq]
    norm_num [ppow2, pmul, pexp]

theorem normal_distributionF_even (P : FPrims) (x mu sigma : ℚ) :
    normal_distributionF P x mu (-sigma) = normal_distributionF P x mu sigma := by
  unfold normal_distributionF
  rw [neg_sq, ppow2_qdiv_neg]

theorem normal_distributionF_pos_of_ne (P : FPrims) (x mu sigma : ℚ)
    (hσ : sigma ≠ 0) (hpi : 0 < P.pi) (hpow : ∀ q : ℚ, 0 < q → 0 < P.powNegHalf q)
    (hexp : ∀ q : ℚ, 0 < P.exp q) :
    ∃ q : ℚ, 0 < q ∧ normal_distributionF P x mu sigma = PFloat.fin q := by
  have harg : 0 < 2 * P.pi * sigma ^ 2 := by positivity
  refine ⟨P.powNegHalf (2 * P.pi * sigma ^ 2) *
      P.exp (-(1/2) * ((x - mu) / sigma) ^ 2),
    mul_pos (hpow _ harg) (hexp _), ?_⟩
  unfold normal_distributionF npPowNegHalf qdiv
  rw [if_pos harg, if_neg hσ]
  rfl

/-- Counterexample to C6 as stated: at `sigma = -1 ≤ 0` the density
neither fails nor returns NaN — it silently returns the finite positive
value `fin 1` (with unit-valued demo primitives; with the true
primitives the value is `(2π)^(-1/2) > 0`). -/
theorem normal_distribution_negative_sigma_finite_positive :
    normal_distributionF demoF 0 0 (-1) = PFloat.fin 1 ∧ (0:ℚ) < 1 := by
  refine ⟨?_, by norm_num⟩
  norm_num [normal_distributionF, demoF, npPowNegHalf, qdiv, ppow2, pmul, pexp]

/-- Claim C6 (amended): the Gaussian density primitive never fails; it
returns NaN exactly when `sigma = 0` (a `0 * inf` indeterminate form), and
for `sigma < 0` it silently returns the same finite positive value as for
`-sigma` — the formula only uses `sigma^2` and `((x-mu)/sigma)^2`, so it
is even in `sigma` — hence callers must guard `sigma > 0` themselves. -/
theorem normal_distribution_nonpositive_sigma (P : FPrims) (x mu sigma : ℚ)
    (hpi : 0 < P.pi) (hpow : ∀ q : ℚ, 0 < q → 0 < P.powNegHalf q)
    (hexp : ∀ q : ℚ, 0 < P.exp q) :
    (sigma = 0 → normal_distributionF P x mu sigma = PFloat.nan) ∧
    normal_distributionF P x mu (-sigma) = normal_distributionF P x mu sigma ∧
    (sigma < 0 → ∃ q : ℚ, 0 < q ∧ normal_distributionF P x mu sigma = PFloat.fin q) := by
  refine ⟨?_, normal_distributionF_even P x mu sigma, ?_⟩
  · intro h
    subst h
    exact normal_distributionF_sigma_zero P x mu
  · intro h
    exact normal_distributionF_pos_of_ne P x mu sigma (ne_of_lt h) hpi hpow hexp

/-- Witness for the amended C6 at a concrete input. -/
theorem normal_distribution_nonpositive_sigma_witness :
    ((-1 : ℚ) = 0 → normal_distributionF demoF 0 0 (-1) = PFloat.nan) ∧
    normal_distributionF demoF 0 0 (-(-1)) = normal_distributionF demoF 0 0 (-1) ∧
    ((-1 : ℚ) < 0 → ∃ q : ℚ, 0 < q ∧ normal_distributionF demoF 0 0 (-1) = PFloat.fin q) :=
  normal_distribution_nonpositive_sigma demoF 0 0 (-1) (by norm_num [demoF])
    (fun _ _ => by norm_num [demoF]) (fun _ => by norm_num [demoF])

/-! ## Claim C2 -/

theorem npLinspace_length (a b : ℚ) (n : ℕ) : (npLinspace a b n).length = n := by
  unfold npLinspace
  rw [List.length_map, List.length_range]

theorem builderGrid_length (P : FPrims) (zrate : ℚ) :
    (builderGrid P zrate).length = 100000 := by
  unfold builderGrid
  rw [List.length_map, npLinspace_length]

theorem trapzF_zeros : ∀ (n : ℕ) (x : List ℚ),
    trapzF (List.replicate n (PFloat.fin 0)) x = PFloat.fin 0
  | 0, _ => rfl
  | 1, _ => rfl
  | n+2, [] => rfl
  | n+2, [_] => rfl
  | n+2, x0 :: x1 :: xs => by
      rw [List.replicate_succ (PFloat.fin 0) (n+1), List.replicate_succ (PFloat.fin 0) n]
      rw [trapzF]
      rw [show (PFloat.fin 0 :: List.replicate n (PFloat.fin 0)) =
            List.replicate (n+1) (PFloat.fin 0) from
          (List.replicate_succ (PFloat.fin 0) n).symm]
      rw [trapzF_zeros (n+1) (x1 :: xs)]
      norm_num [padd, pmul, pdiv]

theorem build_interpolant_empty (P : FPrims) (zrate : ℚ) (nocom : Bool) :
    (build_interpolant P [] [] zrate nocom).1 = List.replicate 100000 PFloat.nan := by
  have hsum : interpolantSum P zrate nocom [] [] =
      List.replicate 100000 (PFloat.fin 0) := by
    unfold interpolantSum
    rw [List.zip_nil_left, List.foldl_nil, List.map_const', builderGrid_length]
  simp only [build_interpolant]
  rw [hsum, trapzF_zeros 100000 (builderGrid P zrate), List.map_replicate]
  norm_num [pdiv]

theorem build_interpolant_TH21_empty (P : FPrims) :
    build_interpolant_TH21 P [] =
      Except.error "zero-size array to reduction operation maximum which has no identity" := rfl

/-- Counterexample to C2 as stated, at the concrete empty catalog: the
full builder does NOT fail — it returns a density curve of 100000 NaN
values — and the TH21 builder fails with numpy's generic zero-size
reduction error, not an explicit "empty catalog" error. -/
theorem empty_catalog_counterexample :
    (build_interpolant demoF [] [] 1 false).1 = List.replicate 100000 PFloat.nan ∧
    build_interpolant_TH21 demoF [] =
      Except.error "zero-size array to reduction operation maximum which has no identity" :=
  ⟨build_interpolant_empty demoF 1 false, build_interpolant_TH21_empty demoF⟩

/-- Claim C2 (amended): on the empty catalog `build_interpolant` does not
fail at all — the galaxy loop contributes nothing, the zero curve is
divided by its zero integral, and an all-NaN density curve is returned —
while `build_interpolant_TH21` fails, but with numpy's generic zero-size
reduction `ValueError` raised by `z_true.max()`, not an explicit
"empty catalog" error. -/
theorem empty_catalog_behaviour (P : FPrims) (zrate : ℚ) (nocom : Bool) :
    (build_interpolant P [] [] zrate nocom).1 = List.replicate 100000 PFloat.nan ∧
    build_interpolant_TH21 P [] =
      Except.error "zero-size array to reduction operation maximum which has no identity" :=
  ⟨build_interpolant_empty P zrate nocom, build_interpolant_TH21_empty P⟩

/-! ## Claim C3 -/

/-- Counterexample to C3 as stated: on the nonempty single-point H0 grid
`[70]` with one event, the trapezoidal integral over the grid is
identically zero (numpy's trapezoid rule needs two samples), so the row
normalization divides by zero and the returned combined posterior cannot
integrate to 1 — its integral is 0 (NaN in numpy), not 1. -/
theorem combined_posterior_single_point_grid :
    trapzQ (galaxy_catalog_analysis_accurate_redshift demoQ (fun _ => 7000) [70] [1/10] 1
        [100] (1/10) 1000).2 [70] ≠ 1 := by
  simp [galaxy_catalog_analysis_accurate_redshift, normalize_and_combine, accurateMatrix,
    renormalizeRow, mulVec, trapzQ]

/-- Claim C3 (amended): for the accurate-redshift and correct
photo-redshift engines, provided every renormalization divisor along the
combined-posterior accumulation is nonzero (this fails e.g. on a
single-point H0 grid, whose trapezoidal integral is identically 0), the
combined posterior integrates to exactly 1 over the H0 grid after each
per-event multiplication step, and in particular the returned combined
posterior integrates to 1, regardless of the number of events.  (The
third engine, `galaxy_catalog_analysis_photo_redshift_TH21`, raises a
TypeError and returns nothing — claim C1.) -/
theorem combined_posterior_unit_integral (P : QPrims) (C : ℚ → ℚ)
    (H0_array galaxies_list : List ℚ) (zcut_rate : ℚ) (gw_obs_dl : List ℚ)
    (sigma_dl dl_thr : ℚ) (Z : Interp1d) (gw_obs_dl2 : List ℚ) (sigma_dl2 dl_thr2 : ℚ)
    (hne : gw_obs_dl ≠ []) (hne2 : gw_obs_dl2 ≠ [])
    (h1 : stepsNonzeroB H0_array (H0_array.map (fun _ => 1))
        (accurateMatrix P C H0_array galaxies_list zcut_rate gw_obs_dl sigma_dl dl_thr) = true)
    (h2 : stepsNonzeroB H0_array (H0_array.map (fun _ => 1))
        (photoMatrix P C H0_array Z gw_obs_dl2 sigma_dl2 dl_thr2) = true) :
    (∀ c ∈ combinedSteps H0_array (H0_array.map (fun _ => 1))
        (accurateMatrix P C H0_array galaxies_list zcut_rate gw_obs_dl sigma_dl dl_thr),
      trapzQ c H0_array = 1) ∧
    trapzQ (galaxy_catalog_analysis_accurate_redshift P C H0_array galaxies_list zcut_rate
        gw_obs_dl sigma_dl dl_thr).2 H0_array = 1 ∧
    (∀ c ∈ combinedSteps H0_array (H0_array.map (fun _ => 1))
        (photoMatrix P C H0_array Z gw_obs_dl2 sigma_dl2 dl_thr2),
      trapzQ c H0_array = 1) ∧
    trapzQ (galaxy_catalog_analysis_photo_redshift P C H0_array Z gw_obs_dl2
        sigma_dl2 dl_thr2).2 H0_array = 1 := by
  have key : ∀ M : List (List ℚ), M ≠ [] →
      stepsNonzeroB H0_array (H0_array.map (fun _ => 1)) M = true →
      trapzQ ((normalize_and_combine M H0_array).2) H0_array = 1 := by
    intro M hM hB
    unfold normalize_and_combine
    rw [foldl_combine_eq_getLastD]
    exact combinedSteps_all_one H0_array M _ hB _
      (getLastD_mem _ _ (combinedSteps_ne_nil _ _ M hM))
  refine ⟨combinedSteps_all_one H0_array _ _ h1, ?_,
          combinedSteps_all_one H0_array _ _ h2, ?_⟩
  · have hM : accurateMatrix P C H0_array galaxies_list zcut_rate gw_obs_dl sigma_dl dl_thr
        ≠ [] := by
      unfold accurateMatrix
      exact fun hcon => hne (List.map_eq_nil_iff.mp hcon)
    exact key _ hM h1
  · have hM : photoMatrix P C H0_array Z gw_obs_dl2 sigma_dl2 dl_thr2 ≠ [] := by
      unfold photoMatrix
      exact fun hcon => hne2 (List.map_eq_nil_iff.mp hcon)
    exact key _ hM h2

/-- Witness for the amended C3 at a concrete two-point grid. -/
theorem combined_posterior_unit_integral_witness :
    (∀ c ∈ combinedSteps [60, 80] (([60, 80] : List ℚ).map (fun _ => 1))
        (accurateMatrix demoQ (fun _ => 7000) [60, 80] [1/10] 1 [100] (1/10) 1000),
      trapzQ c [60, 80] = 1) ∧
    trapzQ (galaxy_catalog_analysis_accurate_redshift demoQ (fun _ => 7000) [60, 80] [1/10] 1
        [100] (1/10) 1000).2 [60, 80] = 1 ∧
    (∀ c ∈ combinedSteps [60, 80] (([60, 80] : List ℚ).map (fun _ => 1))
        (photoMatrix demoQ (fun _ => 7000) [60, 80] ⟨[1/10, 1/5], [1, 1]⟩ [100] (1/10) 1000),
      trapzQ c [60, 80] = 1) ∧
    trapzQ (galaxy_catalog_analysis_photo_redshift demoQ (fun _ => 7000) [60, 80]
        ⟨[1/10, 1/5], [1, 1]⟩ [100] (1/10) 1000).2 [60, 80] = 1 :=
  combined_posterior_unit_integral demoQ (fun _ => 7000) [60, 80] [1/10] 1 [100] (1/10) 1000
    ⟨[1/10, 1/5], [1, 1]⟩ [100] (1/10) 1000 (by simp) (by simp)
    (by norm_num [stepsNonzeroB, accurateMatrix, dltrialList, dltimesH0, pzGivenC, rateTerm,
      FlatLambdaCDM.luminosity_distance, normal_distribution, GW_detection_probability,
      demoQ, renormalizeRow, mulVec, trapzQ])
    (by norm_num [stepsNonzeroB, photoMatrix, photoSelectionBias, dltrialList, dltimesH0,
      FlatLambdaCDM.luminosity_distance, normal_distribution, GW_detection_probability,
      demoQ, renormalizeRow, mulVec, trapzQ])

/-! ## Claim C5 -/

theorem pdiv_nan_right (v : PFloat) : pdiv v PFloat.nan = PFloat.nan := by
  cases v <;> rfl

theorem pdiv_nan_left (v : PFloat) : pdiv PFloat.nan v = PFloat.nan := by
  cases v <;> rfl

theorem padd_nan_left (v : PFloat) : padd PFloat.nan v = PFloat.nan := by
  cases v <;> rfl

theorem padd_nan_right (v : PFloat) : padd v PFloat.nan = PFloat.nan := by
  cases v <;> rfl

theorem pmul_nan_left (v : PFloat) : pmul PFloat.nan v = PFloat.nan := by
  cases v <;> rfl

theorem pmul_nan_right (v : PFloat) : pmul v PFloat.nan = PFloat.nan := by
  cases v <;> rfl

theorem padd_fin_zero (v : PFloat) : padd v (PFloat.fin 0) = v := by
  cases v <;> simp [padd]

theorem addVec_all_zero : ∀ (acc w : List PFloat), (∀ v ∈ w, v = PFloat.fin 0) →
    w.length = acc.length → addVec acc w = acc
  | [], [], _, _ => rfl
  | [], _ :: _, _, hlen => by simp at hlen
  | _ :: _, [], _, hlen => by simp at hlen
  | a :: as, b :: bs, hw, hlen => by
      have hb : b = PFloat.fin 0 := hw b (List.mem_cons_self b bs)
      subst hb
      unfold addVec
      rw [List.zipWith_cons_cons, padd_fin_zero]
      have := addVec_all_zero as bs (fun v hv => hw v (List.mem_cons_of_mem _ hv))
        (by simpa using hlen)
      unfold addVec at this
      rw [this]

theorem galaxyRaw_length (P : FPrims) (zrate : ℚ) (nocom : Bool) (zobs : ℚ) :
    (galaxyRaw P zrate nocom zobs).length = 100000 := by
  unfold galaxyRaw
  rw [List.length_map, builderGrid_length]

theorem galaxyEvals_length (P : FPrims) (zrate : ℚ) (nocom : Bool) (zobs sigobs : ℚ) :
    (galaxyEvals P zrate nocom zobs sigobs).length = 100000 := by
  unfold galaxyEvals
  rw [List.length_map, galaxyRaw_length]

/-- One loop iteration over a galaxy whose local normalization integral
is non-finite leaves the accumulated curve unchanged. -/
theorem builderStep_of_nonfinite (P : FPrims) (zrate : ℚ) (nocom : Bool)
    (acc : List PFloat) (z s : ℚ) (hacc : acc.length = 100000)
    (hbad : (normfactOf P nocom z s).isFinite = false)
    (hraw : ∀ v ∈ galaxyRaw P zrate nocom z, v.isFinite = true) :
    builderStep P zrate nocom acc (z, s) = acc := by
  unfold builderStep
  cases hnf : normfactOf P nocom z s with
  | fin q => rw [hnf] at hbad; simp [PFloat.isFinite] at hbad
  | nan =>
      have hevals : galaxyEvals P zrate nocom z s =
          List.replicate 100000 PFloat.nan := by
        unfold galaxyEvals
        rw [show (galaxyRaw P zrate nocom z).map
              (fun v => pdiv v (normfactOf P nocom z s)) =
            (galaxyRaw P zrate nocom z).map (fun _ => PFloat.nan) from
          List.map_congr_left (fun v _ => by rw [hnf, pdiv_nan_right])]
        rw [List.map_const', galaxyRaw_length]
      rw [hevals]
      have hall : allNaN (List.replicate 100000 PFloat.nan) = true := by
        unfold allNaN
        rw [List.all_eq_true]
        intro v hv
        rw [List.eq_of_mem_replicate hv]
        rfl
      rw [if_pos hall]
  | pinf =>
      have hevals : ∀ v ∈ galaxyEvals P zrate nocom z s, v = PFloat.fin 0 := by
        intro v hv
        unfold galaxyEvals at hv
        obtain ⟨w, hw, rfl⟩ := List.mem_map.1 hv
        have hfin := hraw w hw
        cases w with
        | fin q => rw [hnf]; rfl
        | pinf => simp [PFloat.isFinite] at hfin
        | ninf => simp [PFloat.isFinite] at hfin
        | nan => simp [PFloat.isFinite] at hfin
      show (if allNaN (galaxyEvals P zrate nocom z s) = true then acc
            else addVec acc (galaxyEvals P zrate nocom z s)) = acc
      split
      · rfl
      · exact addVec_all_zero acc _ hevals (by rw [galaxyEvals_length, hacc])
  | ninf =>
      have hevals : ∀ v ∈ galaxyEvals P zrate nocom z s, v = PFloat.fin 0 := by
        intro v hv
        unfold galaxyEvals at hv
        obtain ⟨w, hw, rfl⟩ := List.mem_map.1 hv
        have hfin := hraw w hw
        cases w with
        | fin q => rw [hnf]; rfl
        | pinf => simp [PFloat.isFinite] at hfin
        | ninf => simp [PFloat.isFinite] at hfin
        | nan => simp [PFloat.isFinite] at hfin
      show (if allNaN (galaxyEvals P zrate nocom z s) = true then acc
            else addVec acc (galaxyEvals P zrate nocom z s)) = acc
      split
      · rfl
      · exact addVec_all_zero acc _ hevals (by rw [galaxyEvals_length, hacc])

theorem foldl_builderStep_length (P : FPrims) (zrate : ℚ) (nocom : Bool) :
    ∀ (l : List (ℚ × ℚ)) (acc : List PFloat), acc.length = 100000 →
      (l.foldl (builderStep P zrate nocom) acc).length = 100000
  | [], acc, hacc => by simpa using hacc
  | g :: gs, acc, hacc => by
      rw [List.foldl_cons]
      apply foldl_builderStep_length P zrate nocom gs
      unfold builderStep
      show (if allNaN (galaxyEvals P zrate nocom g.1 g.2) = true then acc
            else addVec acc (galaxyEvals P zrate nocom g.1 g.2)).length = 100000
      split
      · exact hacc
      · unfold addVec
        rw [List.length_zipWith, galaxyEvals_length, hacc]
        exact min_self _

/-- Claim C5: a galaxy whose local normalization integral `normfact` is
non-finite (NaN or ±Inf) contributes exactly zero to the summed density
curve — removing it from the catalog leaves `build_interpolant`'s output
unchanged — and processing continues with the remaining galaxies.  (When
`normfact` is NaN the `evals` row is all-NaN and the loop skips it; when
it is ±Inf every finite kernel value divides to exactly 0, so the
accumulated sum is unchanged.  The finiteness of the kernel values on the
full grid, true of the real `exp`/volume primitives, is a hypothesis.) -/
theorem builder_skips_nonfinite_galaxy (P : FPrims) (zrate : ℚ) (nocom : Bool)
    (pre1 post1 pre2 post2 : List ℚ) (z s : ℚ)
    (hlen : pre1.length = pre2.length)
    (hbad : (normfactOf P nocom z s).isFinite = false)
    (hraw : ∀ v ∈ galaxyRaw P zrate nocom z, v.isFinite = true) :
    build_interpolant P (pre1 ++ z :: post1) (pre2 ++ s :: post2) zrate nocom =
      build_interpolant P (pre1 ++ post1) (pre2 ++ post2) zrate nocom := by
  have hzip : (pre1 ++ z :: post1).zip (pre2 ++ s :: post2) =
      (pre1.zip pre2) ++ (z, s) :: (post1.zip post2) := by
    rw [List.zip_append hlen]
    rfl
  have hzip2 : (pre1 ++ post1).zip (pre2 ++ post2) =
      (pre1.zip pre2) ++ (post1.zip post2) := List.zip_append hlen
  have hsum : interpolantSum P zrate nocom (pre1 ++ z :: post1) (pre2 ++ s :: post2) =
      interpolantSum P zrate nocom (pre1 ++ post1) (pre2 ++ post2) := by
    unfold interpolantSum
    rw [hzip, hzip2, List.foldl_append, List.foldl_append, List.foldl_cons]
    have hstep : builderStep P zrate nocom
        ((pre1.zip pre2).foldl (builderStep P zrate nocom)
          ((builderGrid P zrate).map (fun _ => PFloat.fin 0))) (z, s) =
        (pre1.zip pre2).foldl (builderStep P zrate nocom)
          ((builderGrid P zrate).map (fun _ => PFloat.fin 0)) := by
      apply builderStep_of_nonfinite P zrate nocom _ z s ?_ hbad hraw
      apply foldl_builderStep_length
      rw [List.map_const', builderGrid_length, List.length_replicate]
    rw [hstep]
  simp only [build_interpolant]
  rw [hsum]

theorem trapzF_nan : ∀ (y : List PFloat) (x : List ℚ), y.length = x.length →
    2 ≤ y.length → PFloat.nan ∈ y → trapzF y x = PFloat.nan
  | [], _, _, h2, _ => by simp at h2
  | [_], _, _, h2, _ => by simp at h2
  | _ :: _ :: _, [], hlen, _, _ => by simp at hlen
  | _ :: _ :: _, [_], hlen, _, _ => by simp at hlen
  | y0 :: y1 :: ys, x0 :: x1 :: xs, hlen, _, hmem => by
      rw [trapzF]
      rcases List.mem_cons.mp hmem with rfl | hmem1
      · rw [padd_nan_left, pmul_nan_right, pdiv_nan_left, padd_nan_left]
      · rcases List.mem_cons.mp hmem1 with rfl | hmem2
        · rw [padd_nan_right, pmul_nan_right, pdiv_nan_left, padd_nan_left]
        · have hne : ys ≠ [] := List.ne_nil_of_mem hmem2
          have hpos : 0 < ys.length := List.length_pos.mpr hne
          have hrec : trapzF (y1 :: ys) (x1 :: xs) = PFloat.nan := by
            apply trapzF_nan (y1 :: ys) (x1 :: xs) (by simpa using hlen) ?_
              (List.mem_cons_of_mem _ hmem2)
            simp only [List.length_cons]
            omega
          rw [hrec, padd_nan_right]

theorem npLinspace_mem_last (a b : ℚ) (n : ℕ) (hn : 2 ≤ n) : b ∈ npLinspace a b n := by
  unfold npLinspace
  refine List.mem_map.mpr ⟨n - 1, List.mem_range.mpr (by omega), ?_⟩
  rw [Nat.cast_sub (by omega : 1 ≤ n), Nat.cast_one]
  have hne : (n : ℚ) - 1 ≠ 0 := by
    have h2 : (2:ℚ) ≤ (n:ℚ) := by exact_mod_cast hn
    linarith
  rw [mul_div_assoc, div_self hne, mul_one]
  ring

theorem normal_distributionF_isFinite (P : FPrims) (x mu sigma : ℚ)
    (hσ : sigma ≠ 0) (hpi : 0 < P.pi) :
    (normal_distributionF P x mu sigma).isFinite = true := by
  have harg : 0 < 2 * P.pi * sigma ^ 2 := by positivity
  unfold normal_distributionF npPowNegHalf qdiv
  rw [if_pos harg, if_neg hσ]
  rfl

/-- The concrete bad galaxy for the C5 witness: observed redshift `-1`
with zero reported uncertainty makes the 50000-point local grid reach
`z = -1`, where the clamped kernel width is `0`, so the local integrand
is NaN and so is the local normalization integral. -/
theorem normfact_demo_bad : (normfactOf demoF false (-1) 0).isFinite = false := by
  have hz : zevalOf (-1) 0 = npLinspace 0 (-1) 50000 := by
    unfold zevalOf
    norm_num
  have hnan : PFloat.nan ∈ pvalOf demoF false (-1) 0 := by
    unfold pvalOf
    rw [hz]
    refine List.mem_map.mpr ⟨-1, npLinspace_mem_last 0 (-1) 50000 (by norm_num), ?_⟩
    have hσ : sigmaClamp (-1) = 0 := by norm_num [sigmaClamp]
    rw [hσ, normal_distributionF_sigma_zero, pmul_nan_left]
  have htr : trapzF (pvalOf demoF false (-1) 0) (zevalOf (-1) 0) = PFloat.nan := by
    apply trapzF_nan
    · unfold pvalOf
      rw [List.length_map]
    · unfold pvalOf
      rw [List.length_map, hz, npLinspace_length]
      norm_num
    · exact hnan
  unfold normfactOf
  rw [htr]
  rfl

/-- With the demo primitives every full-grid kernel value of the bad
galaxy is finite (the grid points are `exp`-images, all equal to 1, where
the clamped width is `0.015 ≠ 0`). -/
theorem galaxyRaw_demo_finite : ∀ v ∈ galaxyRaw demoF 1 false (-1), v.isFinite = true := by
  intro v hv
  unfold galaxyRaw builderGrid at hv
  obtain ⟨zg, hzg, rfl⟩ := List.mem_map.1 hv
  obtain ⟨w, _, rfl⟩ := List.mem_map.1 hzg
  have hσ : sigmaClamp (demoF.exp w) ≠ 0 := by
    norm_num [demoF, sigmaClamp]
  have hfin := normal_distributionF_isFinite demoF (demoF.exp w) (-1)
      (sigmaClamp (demoF.exp w)) hσ (by norm_num [demoF])
  cases hX : normal_distributionF demoF (demoF.exp w) (-1) (sigmaClamp (demoF.exp w)) with
  | fin q => rfl
  | pinf => rw [hX] at hfin; simp [PFloat.isFinite] at hfin
  | ninf => rw [hX] at hfin; simp [PFloat.isFinite] at hfin
  | nan => rw [hX] at hfin; simp [PFloat.isFinite] at hfin

/-- Witness for C5 at a concrete catalog: removing the bad galaxy leaves
the builder's output unchanged. -/
theorem builder_skips_nonfinite_galaxy_witness :
    build_interpolant demoF [-1] [0] 1 false = build_interpolant demoF [] [] 1 false :=
  builder_skips_nonfinite_galaxy demoF 1 false [] [] [] [] (-1) 0 rfl
    normfact_demo_bad galaxyRaw_demo_finite
